import Mathlib

/-!
# Verification of the atmb-us-non-cmra address-enrichment pipeline

Shallow embedding of the Go sources:

* `APIManager` and its methods `GetCredentials`, `InvalidateCurrent`,
  `rotate` (the credential pool manager);
* `SmartyInfo` and the `smartyWorker` retry loop;
* the shutdown coordination and failure-stream plumbing of `main`;
* the per-card address parsing of `getStateDetail` (`atmb.go`).

External collaborators (the Smarty HTTP client, the interactive
credential prompt, the regexp engine, goquery) are modelled as oracles
passed in as parameters: each embedded function receives the value the
collaborator would have returned.  Machine behaviour that would abort
the Go process (indexing a nil slice, dereferencing a nil response) is
made explicit as a `crash` result.

All `APIManager` methods in the source run under `m.mutex`, so any
concurrent usage is equivalent to a sequence of atomic method calls;
the theorems about concurrent behaviour quantify over such sequences.
-/

/-- Model of `ApiCredential` from the source: AuthID + AuthToken. -/
structure ApiCredential where
  authID : String
  authToken : String
deriving DecidableEq, Repr

/-- Model of `APIManager` from the source.  The `mutex` field is not data; it is
represented by the atomic-step modelling described in the header. -/
structure APIManager where
  credentials : List ApiCredential
  current : Nat
  usageCount : Nat
  maxUsage : Nat
deriving DecidableEq, Repr

/-- Constructor `NewAPIManager`: fresh manager, cursor 0, counter 0, quota 1000. -/
def NewAPIManager (credentials : List ApiCredential) : APIManager :=
  { credentials := credentials, current := 0, usageCount := 0, maxUsage := 1000 }

/-- Method `rotate`: advance the cursor, reset the usage counter. -/
def APIManager.rotate (m : APIManager) : APIManager :=
  { m with current := m.current + 1, usageCount := 0 }

/-- Guard of the quota-rotation step at the top of `GetCredentials`:
`m.usageCount >= m.maxUsage && m.current < len(m.credentials)`. -/
def APIManager.needsRotate (m : APIManager) : Bool :=
  decide (m.maxUsage ≤ m.usageCount) && decide (m.current < m.credentials.length)

/-- The state of the manager after the conditional quota rotation at the
top of `GetCredentials`. -/
def APIManager.preRotate (m : APIManager) : APIManager :=
  if m.needsRotate then m.rotate else m

/-- Result of `GetCredentials`: `ok c` is `(c, true)`, `stop` is the
`(ApiCredential{}, false)` exhaustion signal, and `crash` marks the Go
panic that `m.credentials[m.current]` would raise out of bounds. -/
inductive AcqRes where
  | ok (c : ApiCredential)
  | stop
  | crash
deriving DecidableEq, Repr

/-- The tail of `GetCredentials`:
`cred := m.credentials[m.current]; m.usageCount++; return cred, true`.
The boolean records whether the replenishment collaborator was invoked
on this call (used to state the contract). -/
def APIManager.serve (m : APIManager) (invoked : Bool) :
    AcqRes × APIManager × Bool :=
  match m.credentials.get? m.current with
  | some c => (AcqRes.ok c, { m with usageCount := m.usageCount + 1 }, invoked)
  | none => (AcqRes.crash, m, invoked)

/-- Appending step `m.credentials = append(m.credentials, newCredentials...)`. -/
def APIManager.replenish (m : APIManager) (cs : List ApiCredential) : APIManager :=
  { m with credentials := m.credentials ++ cs }

/-- Method `GetCredentials`.  The interactive collaborator
`getAdditionalCredentialsFromUser(1)` is an oracle: `cs` is the list of
credentials the user would supply if prompted on this call.  Returns
(result, new state, whether the replenishment prompt was invoked). -/
def APIManager.GetCredentials (m : APIManager) (cs : List ApiCredential) :
    AcqRes × APIManager × Bool :=
  let m1 := m.preRotate
  if m1.credentials.length ≤ m1.current then
    if cs.isEmpty then (AcqRes.stop, m1, true)
    else (m1.replenish cs).serve true
  else m1.serve false

/-- Method `InvalidateCurrent`: return unchanged when the pool is exhausted,
otherwise force a rotation. -/
def APIManager.InvalidateCurrent (m : APIManager) : APIManager :=
  if m.credentials.length ≤ m.current then m else m.rotate

/-- The pool invariant: the cursor never passes more than one slot past
the last credential, i.e. `current ≤ len(credentials)`. -/
def APIManager.Inv (m : APIManager) : Prop :=
  m.current ≤ m.credentials.length

instance (m : APIManager) : Decidable m.Inv :=
  inferInstanceAs (Decidable (m.current ≤ m.credentials.length))

/-- Iterated version: `n` lock-serialized calls to `InvalidateCurrent` in a row. -/
def APIManager.invalidateN (m : APIManager) : Nat → APIManager
  | 0 => m
  | n + 1 => m.InvalidateCurrent.invalidateN n

/-- One atomic pool operation, as serialized by `m.mutex`:
an `Acquire` (with the replenishment oracle's answer for that call) or
an `Invalidate`. -/
inductive PoolOp where
  | acquire (cs : List ApiCredential)
  | invalidate
deriving DecidableEq, Repr

/-- State reached after one pool operation. -/
def APIManager.applyOp (m : APIManager) : PoolOp → APIManager
  | PoolOp.acquire cs => (m.GetCredentials cs).2.1
  | PoolOp.invalidate => m.InvalidateCurrent

/-- State reached after a sequence of pool operations. -/
def APIManager.runOps (m : APIManager) : List PoolOp → APIManager
  | [] => m
  | op :: ops => (m.applyOp op).runOps ops

/-- An operation that appends no new credentials to the pool:
an `Invalidate`, or an `Acquire` whose replenishment answer is empty. -/
def PoolOp.noNewCreds : PoolOp → Bool
  | PoolOp.acquire cs => cs.isEmpty
  | PoolOp.invalidate => true

/-- Model of `Address` from the crawler source: raw fields plus the two enrichment fields
(`RDI`, `CMRA`), which discovery initialises to `"UNKNOWN"`. -/
structure Address where
  title : String
  price : String
  street : String
  city : String
  state : String
  zip : String
  link : String
  rdi : String
  cmra : String
deriving DecidableEq, Repr

/-- What the Smarty client returns for one lookup batch, as an oracle:
the send fails, the batch record has no results, or it has a first
candidate carrying the two analysis fields. -/
inductive SmartyResponse where
  | sendError
  | noResults
  | candidate (cmra rdi : String)
deriving DecidableEq, Repr

/-- Errors `SmartyInfo` can return: `unknownAddress` is the sentinel
`ErrUnknownAddress`; `transient` stands for any other error (the worker
only distinguishes `errors.Is(err, ErrUnknownAddress)`). -/
inductive SmartyErr where
  | transient
  | unknownAddress
deriving DecidableEq, Repr

/-- Function `SmartyInfo`: on a failed send return the error as-is; on an empty
result set return `ErrUnknownAddress`; otherwise copy the candidate's
DPVCMRACode and RDI into the address and return nil. -/
def SmartyInfo (resp : SmartyResponse) (addr : Address) :
    Except SmartyErr Address :=
  match resp with
  | SmartyResponse.sendError => Except.error SmartyErr.transient
  | SmartyResponse.noResults => Except.error SmartyErr.unknownAddress
  | SmartyResponse.candidate cmra rdi =>
      Except.ok { addr with cmra := cmra, rdi := rdi }

/-- Constant `maxRetries = 4` from the worker source (total attempts `1 + 4 = 5`). -/
def maxRetries : Nat := 4

/-- Constant `initialBackoff = 2 * time.Second`, measured here in seconds. -/
def initialBackoffSec : Nat := 2

/-- Wait performed at the head of iteration `attempt` (for
`attempt > 0`): `initialBackoff * (1 << (attempt-1))`, in seconds. -/
def backoffDuration (attempt : Nat) : Nat :=
  initialBackoffSec * 2 ^ (attempt - 1)

/-- A send performed by `smartyWorker`: to the `results` channel or to
the `failedJobs` channel. -/
inductive Sent where
  | toResults (a : Address)
  | toFailed (a : Address)
deriving DecidableEq, Repr

/-- Observable effect of `smartyWorker` processing one `Address`:
the final address value, the final pool state, the backoff sleeps in
order, the number of `InvalidateCurrent` calls, the channel sends in
order, whether the worker returned (credential exhaustion), whether the
Go code would have panicked, the final `success` flag, and the number of
loop iterations entered. -/
structure JobResult where
  addr : Address
  mgr : APIManager
  sleeps : List Nat
  invalidations : Nat
  sends : List Sent
  exited : Bool
  crashed : Bool
  succeeded : Bool
  attempts : Nat
deriving DecidableEq, Repr

/-- The retry loop of `smartyWorker` for one address, from iteration
`attempt` with `fuel` iterations left (the Go loop runs
`attempt = 0 .. maxRetries`, so a full run has `fuel = maxRetries + 1`).
`replenish i` and `responses i` are the oracle answers of the
credential prompt and of the Smarty client at iteration `i`. -/
def smartyAttemptLoop (replenish : Nat → List ApiCredential)
    (responses : Nat → SmartyResponse) (addr : Address) :
    Nat → Nat → APIManager → JobResult
  | _attempt, 0, mgr =>
      { addr := addr, mgr := mgr, sleeps := [], invalidations := 0,
        sends := [], exited := false, crashed := false,
        succeeded := false, attempts := 0 }
  | attempt, fuel + 1, mgr =>
      let mySleeps : List Nat :=
        if attempt = 0 then [] else [backoffDuration attempt]
      match mgr.GetCredentials (replenish attempt) with
      | (AcqRes.stop, mgr1, _) =>
          { addr := addr, mgr := mgr1, sleeps := mySleeps,
            invalidations := 0, sends := [Sent.toFailed addr],
            exited := true, crashed := false, succeeded := false,
            attempts := 1 }
      | (AcqRes.crash, mgr1, _) =>
          { addr := addr, mgr := mgr1, sleeps := mySleeps,
            invalidations := 0, sends := [], exited := true,
            crashed := true, succeeded := false, attempts := 1 }
      | (AcqRes.ok _c, mgr1, _) =>
          match SmartyInfo (responses attempt) addr with
          | Except.ok addr1 =>
              { addr := addr1, mgr := mgr1, sleeps := mySleeps,
                invalidations := 0, sends := [Sent.toResults addr1],
                exited := false, crashed := false, succeeded := true,
                attempts := 1 }
          | Except.error SmartyErr.unknownAddress =>
              { addr := addr, mgr := mgr1, sleeps := mySleeps,
                invalidations := 0, sends := [Sent.toFailed addr],
                exited := false, crashed := false, succeeded := true,
                attempts := 1 }
          | Except.error SmartyErr.transient =>
              let rest := smartyAttemptLoop replenish responses addr
                (attempt + 1) fuel mgr1.InvalidateCurrent
              { addr := rest.addr, mgr := rest.mgr,
                sleeps := mySleeps ++ rest.sleeps,
                invalidations := rest.invalidations + 1,
                sends := rest.sends, exited := rest.exited,
                crashed := rest.crashed, succeeded := rest.succeeded,
                attempts := rest.attempts + 1 }

/-- Processing of one job by `smartyWorker`: the full retry loop
starting at iteration 0. -/
def smartyProcessJob (mgr : APIManager) (replenish : Nat → List ApiCredential)
    (responses : Nat → SmartyResponse) (addr : Address) : JobResult :=
  smartyAttemptLoop replenish responses addr 0 (maxRetries + 1) mgr

/-- A job ends in the documented retry-exhaustion drop when the loop
finished without the `success` flag and without the worker returning. -/
def JobResult.dropped (r : JobResult) : Bool :=
  !r.succeeded && !r.exited

/-- State of the shutdown coordination in `main`: whether `close(jobs)`
has run, and how many times it has run.  In the source the only action
guarded by `shutdownOnce` is `initiateShutdown`, which closes `jobs`, so
the `sync.Once` fired flag and `jobsClosed` coincide. -/
structure ShutdownState where
  jobsClosed : Bool
  closeCount : Nat
deriving DecidableEq, Repr

/-- Initial shutdown state: `jobs` open, never closed. -/
def initShutdownState : ShutdownState :=
  { jobsClosed := false, closeCount := 0 }

/-- Gate `shutdownOnce.Do(initiateShutdown)`: run `close(jobs)` only if it
has not run before. -/
def shutdownOnceDo (s : ShutdownState) : ShutdownState :=
  if s.jobsClosed then s else { jobsClosed := true, closeCount := s.closeCount + 1 }

/-- The two events on which the watcher goroutines of `main` call
`shutdownOnce.Do`: `atmbWg.Wait()` returning (discovery complete), and
`<-failedJobs` yielding a message.  The `failedJobs` channel carries
bare `*Address` values, so the receiving watcher cannot tell a
credentials-exhausted send from an unknown-address send. -/
inductive MainEvent where
  | discoveryDone
  | failedJobsRecv
deriving DecidableEq, Repr

/-- Effect of one watcher event in `main`: both watchers perform the
same `shutdownOnce.Do(initiateShutdown)`. -/
def mainShutdownStep (s : ShutdownState) (_e : MainEvent) : ShutdownState :=
  shutdownOnceDo s

/-- Shutdown state after a sequence of watcher events (any interleaving
of the two watcher goroutines firing, serialized by `sync.Once`). -/
def mainShutdownRun (evts : List MainEvent) : ShutdownState :=
  evts.foldl mainShutdownStep initShutdownState

/-- The addresses that `writeFailedToCSV` receives, as a function of the
ordered list of all sends on `failedJobs`.  In `main` the exhaustion
watcher (`<-failedJobs`) is the only receiver of `failedJobs` until
`writeFailedToCSV` is called, which happens only after `scrapyWg.Wait()`
— i.e. after every send has completed — so whenever at least one
address was sent, the watcher consumes exactly one of them (the first,
in FIFO order) and the writer drains the rest. -/
def mainFailedStreamToWriter (sent : List Address) : List Address :=
  sent.tail

/-- One `.theme-location-item` card of a state page, as extracted by the
goquery selectors of `getStateDetail`: title text, price text after
`priceRe.FindString` (total, `""` on no match), the inner HTML of
`div.t-addr`, and the `href` of the card's link. -/
structure LocationCard where
  title : String
  price : String
  addrHtml : String
  href : String
deriving DecidableEq, Repr

/-- Result of running the body of the `.Each` callback of
`getStateDetail` on one card: an `Address`, or the Go panic raised by
`streetMatch[1]` when `streetRe.FindStringSubmatch` returned nil
(no match). -/
inductive CrawlStep where
  | crashed
  | parsed (a : Address)
deriving DecidableEq, Repr

/-- Body of the `.Each` callback of `getStateDetail`.  `rmatch` is the
oracle for `streetRe.FindStringSubmatch` on the card's address HTML:
`none` models the nil slice Go returns when the markup does not match,
and `some (street, city, state, zip)` models submatches 1-4. -/
def parseCard (rmatch : String → Option (String × String × String × String))
    (card : LocationCard) : CrawlStep :=
  match rmatch card.addrHtml with
  | none => CrawlStep.crashed
  | some (st, city, state, zip) =>
      CrawlStep.parsed
        { title := card.title, price := card.price,
          street := st.trim, city := city.trim,
          state := state.trim, zip := zip.trim,
          link := "https://www.anytimemailbox.com" ++ card.href,
          rdi := "UNKNOWN", cmra := "UNKNOWN" }

/-- The card loop of `getStateDetail`.  A panic inside the `.Each`
callback propagates and aborts the whole program, so a `crashed` card
stops processing of every later card: `Except.error ()`. -/
def getStateDetailCards
    (rmatch : String → Option (String × String × String × String)) :
    List LocationCard → Except Unit (List Address)
  | [] => Except.ok []
  | card :: cards =>
      match parseCard rmatch card with
      | CrawlStep.crashed => Except.error ()
      | CrawlStep.parsed a =>
          match getStateDetailCards rmatch cards with
          | Except.error e => Except.error e
          | Except.ok rest => Except.ok (a :: rest)

/-- Outcome of the HTTP fetch in `getStateDetail`, as an oracle:
`netError` models `client.Get` returning a non-nil error (in which case
`res` is nil), `page cards` a response whose parsed body contains the
given cards. -/
inductive FetchResult where
  | netError
  | page (cards : List LocationCard)
deriving DecidableEq, Repr

/-- Function `getStateDetail` for one state.  After `client.Get` fails the code
only logs and continues, then evaluates `res.StatusCode` and
`res.Body.Close()` on the nil response: a nil-pointer dereference panic,
modelled as `Except.error ()`. -/
def getStateDetailRun
    (rmatch : String → Option (String × String × String × String)) :
    FetchResult → Except Unit (List Address)
  | FetchResult.netError => Except.error ()
  | FetchResult.page cards => getStateDetailCards rmatch cards

/-! ## Concrete fixtures used by witnesses and counterexamples -/

def credA : ApiCredential := { authID := "idA", authToken := "tokA" }

def credB : ApiCredential := { authID := "idB", authToken := "tokB" }

def credC : ApiCredential := { authID := "idC", authToken := "tokC" }

def addr0 : Address :=
  { title := "Mailbox A", price := "9.99", street := "1 Main St",
    city := "Springfield", state := "IL", zip := "62701",
    link := "https://www.anytimemailbox.com/x", rdi := "UNKNOWN",
    cmra := "UNKNOWN" }

/-- Pool with a single credential, as built by `NewAPIManager`. -/
def mgr1 : APIManager := NewAPIManager [credA]

/-- Pool with five credentials, enough for five attempts in a row. -/
def mgr5 : APIManager := NewAPIManager [credA, credB, credC, credA, credB]

/-! ## Helper lemmas about the credential pool -/

theorem APIManager.needsRotate_lt (m : APIManager) (h : m.needsRotate = true) :
    m.current < m.credentials.length := by
  unfold APIManager.needsRotate at h
  simp only [Bool.and_eq_true, decide_eq_true_eq] at h
  exact h.2

theorem APIManager.preRotate_credentials (m : APIManager) :
    m.preRotate.credentials = m.credentials := by
  unfold APIManager.preRotate
  split <;> rfl

theorem APIManager.preRotate_inv (m : APIManager) (h : m.Inv) :
    m.preRotate.Inv := by
  unfold APIManager.preRotate
  split
  · exact APIManager.needsRotate_lt m (by assumption)
  · exact h

theorem APIManager.preRotate_current_le (m : APIManager) :
    m.current ≤ m.preRotate.current := by
  unfold APIManager.preRotate
  split
  · exact Nat.le_succ _
  · exact Nat.le_refl _

theorem APIManager.preRotate_usageCount (m : APIManager) :
    m.preRotate.usageCount = if m.needsRotate then 0 else m.usageCount := by
  unfold APIManager.preRotate
  split <;> simp_all [APIManager.rotate]

theorem APIManager.serve_of_lt (m : APIManager) (b : Bool)
    (h : m.current < m.credentials.length) :
    ∃ c, m.credentials.get? m.current = some c ∧
      m.serve b = (AcqRes.ok c, { m with usageCount := m.usageCount + 1 }, b) := by
  refine ⟨m.credentials.get ⟨m.current, h⟩, List.get?_eq_get h, ?_⟩
  unfold APIManager.serve
  rw [List.get?_eq_get h]

theorem APIManager.serve_state (m : APIManager) (b : Bool) :
    (m.serve b).2.1.current = m.current ∧
    (m.serve b).2.1.credentials = m.credentials ∧
    (m.serve b).2.2 = b := by
  unfold APIManager.serve
  cases m.credentials.get? m.current <;> simp

theorem APIManager.GetCredentials_current (m : APIManager)
    (cs : List ApiCredential) :
    (m.GetCredentials cs).2.1.current = m.preRotate.current := by
  simp only [APIManager.GetCredentials]
  split
  · split
    · rfl
    · rw [(APIManager.serve_state _ _).1]; rfl
  · exact (APIManager.serve_state _ _).1

theorem APIManager.InvalidateCurrent_current (m : APIManager) :
    m.InvalidateCurrent.current
      = if m.current < m.credentials.length then m.current + 1 else m.current := by
  unfold APIManager.InvalidateCurrent
  rcases Nat.lt_or_ge m.current m.credentials.length with h | h
  · rw [if_neg (Nat.not_le.mpr h), if_pos h]; rfl
  · rw [if_pos h, if_neg (Nat.not_lt.mpr h)]

theorem APIManager.InvalidateCurrent_credentials (m : APIManager) :
    m.InvalidateCurrent.credentials = m.credentials := by
  unfold APIManager.InvalidateCurrent
  split <;> rfl

theorem APIManager.applyOp_current_le (m : APIManager) (op : PoolOp) :
    m.current ≤ (m.applyOp op).current := by
  cases op with
  | acquire cs =>
      unfold APIManager.applyOp
      rw [APIManager.GetCredentials_current]
      exact APIManager.preRotate_current_le m
  | invalidate =>
      unfold APIManager.applyOp
      rw [APIManager.InvalidateCurrent_current]
      split
      · exact Nat.le_succ _
      · exact Nat.le_refl _

theorem APIManager.runOps_current_le (m : APIManager) (ops : List PoolOp) :
    m.current ≤ (m.runOps ops).current := by
  induction ops generalizing m with
  | nil => exact Nat.le_refl _
  | cons op ops ih =>
      exact Nat.le_trans (APIManager.applyOp_current_le m op) (ih (m.applyOp op))

theorem APIManager.applyOp_exhausted (m : APIManager) (op : PoolOp)
    (hex : m.credentials.length ≤ m.current) (hop : op.noNewCreds = true) :
    m.applyOp op = m := by
  cases op with
  | invalidate =>
      unfold APIManager.applyOp APIManager.InvalidateCurrent
      rw [if_pos hex]
  | acquire cs =>
      have h1 : m.needsRotate = false := by
        unfold APIManager.needsRotate
        simp [Nat.not_lt.mpr hex]
      have h2 : m.preRotate = m := by
        unfold APIManager.preRotate
        rw [h1]
        rfl
      unfold APIManager.applyOp
      simp only [APIManager.GetCredentials, h2]
      rw [if_pos hex, if_pos (show cs.isEmpty = true from hop)]

theorem APIManager.runOps_exhausted (m : APIManager) (ops : List PoolOp)
    (hex : m.credentials.length ≤ m.current)
    (hops : ∀ op ∈ ops, op.noNewCreds = true) :
    m.runOps ops = m := by
  induction ops with
  | nil => rfl
  | cons op ops ih =>
      unfold APIManager.runOps
      rw [APIManager.applyOp_exhausted m op hex (hops op (List.mem_cons_self op ops))]
      exact ih (fun o ho => hops o (List.mem_cons_of_mem op ho))

theorem APIManager.preRotate_of_exhausted (m : APIManager)
    (hex : m.credentials.length ≤ m.current) : m.preRotate = m := by
  have h1 : m.needsRotate = false := by
    unfold APIManager.needsRotate
    simp [Nat.not_lt.mpr hex]
  unfold APIManager.preRotate
  rw [h1]
  rfl

/-- Complete case analysis of `GetCredentials` under the pool invariant:
either the stop signal (exhausted pool, empty replenishment answer), a
successful serve after replenishment, or a successful plain serve. -/
theorem APIManager.GetCredentials_cases (m : APIManager)
    (cs : List ApiCredential) (hInv : m.Inv) :
    (m.preRotate.credentials.length ≤ m.preRotate.current ∧ cs = [] ∧
      m.GetCredentials cs = (AcqRes.stop, m.preRotate, true)) ∨
    (m.preRotate.credentials.length ≤ m.preRotate.current ∧ cs ≠ [] ∧
      ∃ c, (m.preRotate.replenish cs).credentials.get?
          (m.preRotate.replenish cs).current = some c ∧
        m.GetCredentials cs
          = (AcqRes.ok c,
             { m.preRotate.replenish cs with
                 usageCount := (m.preRotate.replenish cs).usageCount + 1 },
             true)) ∨
    (m.preRotate.current < m.preRotate.credentials.length ∧
      ∃ c, m.preRotate.credentials.get? m.preRotate.current = some c ∧
        m.GetCredentials cs
          = (AcqRes.ok c,
             { m.preRotate with usageCount := m.preRotate.usageCount + 1 },
             false)) := by
  have hInv1 : m.preRotate.Inv := APIManager.preRotate_inv m hInv
  rcases Nat.lt_or_ge m.preRotate.current m.preRotate.credentials.length with hlt | hge
  · right; right
    obtain ⟨c, hc, hs⟩ := APIManager.serve_of_lt m.preRotate false hlt
    refine ⟨hlt, c, hc, ?_⟩
    simp only [APIManager.GetCredentials]
    rw [if_neg (Nat.not_le.mpr hlt), hs]
  · cases hcs : cs.isEmpty with
    | true =>
        left
        refine ⟨hge, List.isEmpty_iff.mp hcs, ?_⟩
        simp only [APIManager.GetCredentials]
        rw [if_pos hge, if_pos hcs]
    | false =>
        right; left
        have hne : cs ≠ [] := by
          intro he
          rw [he] at hcs
          simp at hcs
        have hlt2 : (m.preRotate.replenish cs).current
            < (m.preRotate.replenish cs).credentials.length := by
          have hpos : 0 < cs.length := List.length_pos.mpr hne
          have : m.preRotate.current ≤ m.preRotate.credentials.length := hInv1
          unfold APIManager.replenish
          simp only [List.length_append]
          omega
        obtain ⟨c, hc, hs⟩ := APIManager.serve_of_lt _ true hlt2
        refine ⟨hge, hne, c, hc, ?_⟩
        simp only [APIManager.GetCredentials]
        rw [if_pos hge, if_neg (by rw [hcs]; exact Bool.false_ne_true), hs]

/-! ## Claim theorems about the credential pool -/

/-- C10: every `APIManager` operation preserves the invariant
`0 ≤ current ≤ len(credentials)`: `GetCredentials` (with any
replenishment answer) and `InvalidateCurrent` both keep it, rotation is
performed only when `current < len(credentials)` (both in the quota
check, whose guard is `needsRotate`, and in `InvalidateCurrent`, which
leaves an exhausted pool unchanged), and consequently the credential
access `credentials[current]` inside a successful `GetCredentials` is
always in bounds — the `crash` result marking that Go index panic is
unreachable. -/
theorem apiManager_invariant_preserved (m : APIManager)
    (cs : List ApiCredential) (hInv : m.Inv) :
    ((m.GetCredentials cs).2.1).Inv ∧
    m.InvalidateCurrent.Inv ∧
    (m.credentials.length ≤ m.current → m.InvalidateCurrent = m) ∧
    (m.needsRotate = true → m.current < m.credentials.length) ∧
    (m.GetCredentials cs).1 ≠ AcqRes.crash := by
  have hInv1 : m.preRotate.Inv := APIManager.preRotate_inv m hInv
  refine ⟨?_, ?_, ?_, APIManager.needsRotate_lt m, ?_⟩
  · rcases APIManager.GetCredentials_cases m cs hInv with
      ⟨_, _, h⟩ | ⟨_, _, c, hc, h⟩ | ⟨_, c, hc, h⟩
    · rw [h]; exact hInv1
    · rw [h]
      exact Nat.le_of_lt (List.get?_eq_some.mp hc).1
    · rw [h]
      exact Nat.le_of_lt (List.get?_eq_some.mp hc).1
  · unfold APIManager.InvalidateCurrent
    split
    · exact hInv
    · rename_i h
      exact Nat.lt_of_not_le h
  · intro hex
    unfold APIManager.InvalidateCurrent
    rw [if_pos hex]
  · rcases APIManager.GetCredentials_cases m cs hInv with
      ⟨_, _, h⟩ | ⟨_, _, c, hc, h⟩ | ⟨_, c, hc, h⟩ <;> rw [h] <;> simp

/-- Witness for C10 at a concrete pool satisfying the invariant. -/
theorem apiManager_invariant_preserved_witness :
    ((mgr1.GetCredentials []).2.1).Inv ∧
    mgr1.InvalidateCurrent.Inv ∧
    (mgr1.credentials.length ≤ mgr1.current → mgr1.InvalidateCurrent = mgr1) ∧
    (mgr1.needsRotate = true → mgr1.current < mgr1.credentials.length) ∧
    (mgr1.GetCredentials []).1 ≠ AcqRes.crash :=
  apiManager_invariant_preserved mgr1 [] (by decide)

/-- C3: the `GetCredentials` contract.  If the active credential's
usage counter has reached the quota, the cursor advances with a counter
reset before serving (`preRotate = rotate`).  The replenishment
collaborator is invoked exactly when the (possibly advanced) cursor is
past the end of the sequence; in that case the call returns the stop
signal (`ok=false`) exactly when the collaborator returned zero new
credentials, and otherwise the new credentials are appended and served.
On every successful return the active counter has been incremented by
one over its pre-serve value and the returned credential is the active
one. -/
theorem getCredentials_contract (m : APIManager) (cs : List ApiCredential)
    (hInv : m.Inv) :
    (m.needsRotate = true → m.preRotate = m.rotate ∧ m.preRotate.usageCount = 0) ∧
    ((m.GetCredentials cs).2.2 = true ↔
       m.preRotate.credentials.length ≤ m.preRotate.current) ∧
    (m.preRotate.credentials.length ≤ m.preRotate.current →
       (((m.GetCredentials cs).1 = AcqRes.stop ↔ cs = []) ∧
        (cs ≠ [] →
          (m.GetCredentials cs).2.1.credentials = m.preRotate.credentials ++ cs ∧
          ∃ c, (m.GetCredentials cs).1 = AcqRes.ok c))) ∧
    (∀ c : ApiCredential, (m.GetCredentials cs).1 = AcqRes.ok c →
       (m.GetCredentials cs).2.1.credentials.get?
           (m.GetCredentials cs).2.1.current = some c ∧
       (m.GetCredentials cs).2.1.usageCount
         = (if m.needsRotate then 0 else m.usageCount) + 1) := by
  have h1 : m.needsRotate = true → m.preRotate = m.rotate ∧ m.preRotate.usageCount = 0 := by
    intro h
    have hp : m.preRotate = m.rotate := by
      unfold APIManager.preRotate
      rw [h]
      rfl
    exact ⟨hp, by rw [hp]; rfl⟩
  rcases APIManager.GetCredentials_cases m cs hInv with
    ⟨hge, hcs, h⟩ | ⟨hge, hne, c, hc, h⟩ | ⟨hlt, c, hc, h⟩
  · refine ⟨h1, ?_, ?_, ?_⟩
    · rw [h]
      simp [hge]
    · intro _
      refine ⟨by rw [h]; simp [hcs], ?_⟩
      intro hne
      exact absurd hcs hne
    · intro c hok
      rw [h] at hok
      simp at hok
  · refine ⟨h1, ?_, ?_, ?_⟩
    · rw [h]
      simp [hge]
    · intro _
      refine ⟨?_, ?_⟩
      · rw [h]
        simp [hne]
      · intro _
        rw [h]
        exact ⟨rfl, c, rfl⟩
    · intro c2 hok
      rw [h] at hok
      simp at hok
      subst hok
      rw [h]
      refine ⟨hc, ?_⟩
      show m.preRotate.usageCount + 1 = (if m.needsRotate then 0 else m.usageCount) + 1
      rw [APIManager.preRotate_usageCount]
  · refine ⟨h1, ?_, ?_, ?_⟩
    · rw [h]
      simp [Nat.not_le.mpr hlt]
    · intro hge
      omega
    · intro c2 hok
      rw [h] at hok
      simp at hok
      subst hok
      rw [h]
      refine ⟨hc, ?_⟩
      show m.preRotate.usageCount + 1 = (if m.needsRotate then 0 else m.usageCount) + 1
      rw [APIManager.preRotate_usageCount]

/-- Witness for C3: an exhausted single-slot pool whose replenishment
answer is one new credential. -/
theorem getCredentials_contract_witness :
    ((NewAPIManager []).GetCredentials [credA]).1 = AcqRes.ok credA ∧
    ((NewAPIManager []).GetCredentials [credA]).2.1.credentials
      = (NewAPIManager []).preRotate.credentials ++ [credA] ∧
    ((NewAPIManager []).GetCredentials [credA]).2.1.usageCount
      = (if (NewAPIManager []).needsRotate then 0
         else (NewAPIManager []).usageCount) + 1 := by
  have h := getCredentials_contract (NewAPIManager []) [credA] (by decide)
  have hok : ((NewAPIManager []).GetCredentials [credA]).1 = AcqRes.ok credA := by decide
  refine ⟨hok, ((h.2.2.1 (by decide)).2 (by decide)).1, (h.2.2.2 credA hok).2⟩

/-- C4 counterexample: on a pool of three credentials with cursor 0,
two lock-serialized `InvalidateCurrent` calls — two workers that both
observed the same stale cursor value 0 — advance the cursor to 2, not
to 1: the cursor moves once per call, refuting "exactly once per
observed stale value". -/
theorem invalidate_stale_twice_counterexample :
    ((NewAPIManager [credA, credB, credC]).InvalidateCurrent.InvalidateCurrent).current = 2 ∧
    ¬ ((NewAPIManager [credA, credB, credC]).InvalidateCurrent.InvalidateCurrent).current = 1 := by
  decide

/-- C4 amended: `InvalidateCurrent` performs no staleness check; each
lock-serialized call on a non-exhausted pool advances the cursor by one,
so `n` calls advance it by `n` (once per call, not once per observed
stale value), leaving the credential sequence unchanged. -/
theorem invalidate_advances_once_per_call (m : APIManager) (n : Nat)
    (h : m.current + n ≤ m.credentials.length) :
    (m.invalidateN n).current = m.current + n ∧
    (m.invalidateN n).credentials = m.credentials := by
  induction n generalizing m with
  | zero => exact ⟨rfl, rfl⟩
  | succ n ih =>
      have hlt : m.current < m.credentials.length := by omega
      have hstep : m.InvalidateCurrent = m.rotate := by
        unfold APIManager.InvalidateCurrent
        rw [if_neg (Nat.not_le.mpr hlt)]
      have hrec := ih m.rotate
        (show m.current + 1 + n ≤ m.credentials.length by omega)
      unfold APIManager.invalidateN
      rw [hstep]
      refine ⟨?_, ?_⟩
      · rw [hrec.1]
        show m.current + 1 + n = m.current + (n + 1)
        omega
      · rw [hrec.2]
        rfl

/-- Witness for the amended C4 at a concrete three-credential pool. -/
theorem invalidate_advances_once_per_call_witness :
    ((NewAPIManager [credA, credB, credC]).invalidateN 2).current
      = (NewAPIManager [credA, credB, credC]).current + 2 ∧
    ((NewAPIManager [credA, credB, credC]).invalidateN 2).credentials
      = (NewAPIManager [credA, credB, credC]).credentials :=
  invalidate_advances_once_per_call (NewAPIManager [credA, credB, credC]) 2 (by decide)

/-- C9: the cursor never decreases across any serialized sequence of
pool operations; an exhausted pool is left completely unchanged by
operations that append no credentials (so it stays exhausted until the
replenishment collaborator supplies some); and when a non-empty batch is
appended to an exhausted pool, the cursor is a valid index into the
grown sequence. -/
theorem cursor_monotonic (m : APIManager) (ops : List PoolOp) :
    m.current ≤ (m.runOps ops).current ∧
    (m.credentials.length ≤ m.current →
      (∀ op ∈ ops, op.noNewCreds = true) → m.runOps ops = m) ∧
    (m.Inv → m.credentials.length ≤ m.current →
      ∀ cs : List ApiCredential, cs ≠ [] →
        (m.GetCredentials cs).2.1.current
          < (m.GetCredentials cs).2.1.credentials.length) := by
  refine ⟨APIManager.runOps_current_le m ops,
    APIManager.runOps_exhausted m ops, ?_⟩
  intro hInv hex cs hne
  rcases APIManager.GetCredentials_cases m cs hInv with
    ⟨_, hcs, _⟩ | ⟨_, _, c, hc, h⟩ | ⟨hlt, _⟩
  · rw [hcs] at hne
    exact absurd rfl hne
  · rw [h]
    exact (List.get?_eq_some.mp hc).1
  · rw [APIManager.preRotate_of_exhausted m hex] at hlt
    omega

/-! ## Helper lemmas about the worker retry loop -/

theorem smartyAttemptLoop_transient (replenish : Nat → List ApiCredential)
    (responses : Nat → SmartyResponse) (addr : Address)
    (hresp : ∀ i, responses i = SmartyResponse.sendError) :
    ∀ fuel attempt mgr, mgr.usageCount < mgr.maxUsage → 0 < mgr.maxUsage →
      mgr.current + fuel ≤ mgr.credentials.length →
      (smartyAttemptLoop replenish responses addr attempt fuel mgr).invalidations = fuel ∧
      (smartyAttemptLoop replenish responses addr attempt fuel mgr).sends = [] ∧
      (smartyAttemptLoop replenish responses addr attempt fuel mgr).succeeded = false ∧
      (smartyAttemptLoop replenish responses addr attempt fuel mgr).exited = false ∧
      (smartyAttemptLoop replenish responses addr attempt fuel mgr).attempts = fuel ∧
      (smartyAttemptLoop replenish responses addr attempt fuel mgr).mgr.current
        = mgr.current + fuel := by
  intro fuel
  induction fuel with
  | zero =>
      intro attempt mgr _ _ _
      exact ⟨rfl, rfl, rfl, rfl, rfl, rfl⟩
  | succ fuel ih =>
      intro attempt mgr h1 h2 h3
      have hnr : mgr.needsRotate = false := by
        unfold APIManager.needsRotate
        simp [Nat.not_le.mpr h1]
      have hp : mgr.preRotate = mgr := by
        unfold APIManager.preRotate
        rw [hnr]
        rfl
      have hlt : mgr.current < mgr.credentials.length := by omega
      obtain ⟨c, _hc, hs⟩ := APIManager.serve_of_lt mgr false hlt
      have hget : mgr.GetCredentials (replenish attempt)
          = (AcqRes.ok c, { mgr with usageCount := mgr.usageCount + 1 }, false) := by
        simp only [APIManager.GetCredentials, hp]
        rw [if_neg (Nat.not_le.mpr hlt), hs]
      have hinv : ({ mgr with usageCount := mgr.usageCount + 1 } :
            APIManager).InvalidateCurrent
          = { mgr with current := mgr.current + 1, usageCount := 0 } := by
        unfold APIManager.InvalidateCurrent
        rw [if_neg (Nat.not_le.mpr hlt)]
        rfl
      have ihres := ih (attempt + 1)
        ({ mgr with current := mgr.current + 1, usageCount := 0 })
        (by simpa using h2) (by simpa using h2) (by simp; omega)
      simp only [smartyAttemptLoop, hget, hresp attempt, SmartyInfo, hinv]
      refine ⟨?_, ?_, ?_, ?_, ?_, ?_⟩
      · simp [ihres.1]
      · simp [ihres.2.1]
      · simp [ihres.2.2.1]
      · simp [ihres.2.2.2.1]
      · simp [ihres.2.2.2.2.1]
      · rw [ihres.2.2.2.2.2]
        show mgr.current + 1 + fuel = mgr.current + (fuel + 1)
        omega

theorem backoff_singleton (attempt : Nat) :
    (if attempt = 0 then ([] : List Nat) else [backoffDuration attempt])
      = ((List.range' attempt 1).filter (fun i => !(i == 0))).map backoffDuration := by
  cases attempt with
  | zero => rfl
  | succ a => rfl

theorem filter_map_range'_split (attempt n : Nat) (f : Nat → Nat)
    (p : Nat → Bool) :
    ((List.range' attempt (n + 1)).filter p).map f
      = ((List.range' attempt 1).filter p).map f
        ++ ((List.range' (attempt + 1) n).filter p).map f := by
  rw [show List.range' attempt (n + 1) = attempt :: List.range' (attempt + 1) n from rfl,
      show List.range' attempt 1 = [attempt] from rfl]
  cases h : p attempt <;> simp [List.filter_cons, h]

theorem smartyAttemptLoop_sleeps (replenish : Nat → List ApiCredential)
    (responses : Nat → SmartyResponse) (addr : Address) :
    ∀ fuel attempt mgr,
      (smartyAttemptLoop replenish responses addr attempt fuel mgr).sleeps
        = ((List.range' attempt
              (smartyAttemptLoop replenish responses addr attempt fuel mgr).attempts).filter
            (fun i => !(i == 0))).map backoffDuration := by
  intro fuel
  induction fuel with
  | zero => intro attempt mgr; rfl
  | succ fuel ih =>
      intro attempt mgr
      simp only [smartyAttemptLoop]
      rcases hget : mgr.GetCredentials (replenish attempt) with ⟨r, mgr1, b⟩
      cases r with
      | stop => exact backoff_singleton attempt
      | crash => exact backoff_singleton attempt
      | ok c =>
          cases hsm : SmartyInfo (responses attempt) addr with
          | ok addr1 => exact backoff_singleton attempt
          | error e =>
              cases e with
              | unknownAddress => exact backoff_singleton attempt
              | transient =>
                  simp only []
                  rw [filter_map_range'_split, ← backoff_singleton attempt,
                    ← ih (attempt + 1) mgr1.InvalidateCurrent]

theorem range'_filter_pos : ∀ (n s : Nat),
    (List.range' (s + 1) n).filter (fun i => !(i == 0)) = List.range' (s + 1) n := by
  intro n
  induction n with
  | zero => intro s; rfl
  | succ n ih =>
      intro s
      rw [show List.range' (s + 1) (n + 1) = (s + 1) :: List.range' (s + 1 + 1) n from rfl]
      rw [List.filter_cons]
      rw [if_pos (show (!((s + 1 : Nat) == 0)) = true from rfl)]
      rw [ih (s + 1)]

theorem smartyAttemptLoop_attempts_pos (replenish : Nat → List ApiCredential)
    (responses : Nat → SmartyResponse) (addr : Address) (fuel attempt : Nat)
    (mgr : APIManager) :
    1 ≤ (smartyAttemptLoop replenish responses addr attempt (fuel + 1) mgr).attempts := by
  simp only [smartyAttemptLoop]
  rcases hget : mgr.GetCredentials (replenish attempt) with ⟨r, mgr1, b⟩
  cases r with
  | stop => exact Nat.le_refl 1
  | crash => exact Nat.le_refl 1
  | ok c =>
      cases hsm : SmartyInfo (responses attempt) addr with
      | ok addr1 => exact Nat.le_refl 1
      | error e =>
          cases e with
          | unknownAddress => exact Nat.le_refl 1
          | transient => exact Nat.le_add_left 1 _

/-! ## Claim theorems about the enrichment worker -/

/-- C5: when the first attempt's validation call classifies the address
as "not found" (empty result set, `ErrUnknownAddress`), the worker
performs no further retry (a single loop iteration), emits the address
on the failure stream (the `Unprocessed(unknown-address)` outcome),
never calls `InvalidateCurrent`, sleeps not at all, keeps running, and
leaves the pool exactly in the state the preceding `GetCredentials`
call produced — the not-found classification itself touches neither
the cursor nor the usage counter. -/
theorem notFound_no_retry_no_penalty (mgr : APIManager)
    (replenish : Nat → List ApiCredential) (responses : Nat → SmartyResponse)
    (addr : Address) (c : ApiCredential)
    (hacq : (mgr.GetCredentials (replenish 0)).1 = AcqRes.ok c)
    (hresp : responses 0 = SmartyResponse.noResults) :
    (smartyProcessJob mgr replenish responses addr).attempts = 1 ∧
    (smartyProcessJob mgr replenish responses addr).sends = [Sent.toFailed addr] ∧
    (smartyProcessJob mgr replenish responses addr).invalidations = 0 ∧
    (smartyProcessJob mgr replenish responses addr).sleeps = [] ∧
    (smartyProcessJob mgr replenish responses addr).exited = false ∧
    (smartyProcessJob mgr replenish responses addr).mgr
      = (mgr.GetCredentials (replenish 0)).2.1 := by
  rcases hget : mgr.GetCredentials (replenish 0) with ⟨r, mgr1, b⟩
  rw [hget] at hacq
  simp only [] at hacq
  subst hacq
  unfold smartyProcessJob maxRetries
  simp [smartyAttemptLoop, hget, hresp, SmartyInfo]

/-- Witness for C5: one-credential pool, not-found on first attempt. -/
theorem notFound_no_retry_no_penalty_witness :
    (smartyProcessJob mgr1 (fun _ => []) (fun _ => SmartyResponse.noResults) addr0).attempts = 1 ∧
    (smartyProcessJob mgr1 (fun _ => []) (fun _ => SmartyResponse.noResults) addr0).sends
      = [Sent.toFailed addr0] ∧
    (smartyProcessJob mgr1 (fun _ => []) (fun _ => SmartyResponse.noResults) addr0).invalidations = 0 ∧
    (smartyProcessJob mgr1 (fun _ => []) (fun _ => SmartyResponse.noResults) addr0).sleeps = [] ∧
    (smartyProcessJob mgr1 (fun _ => []) (fun _ => SmartyResponse.noResults) addr0).exited = false ∧
    (smartyProcessJob mgr1 (fun _ => []) (fun _ => SmartyResponse.noResults) addr0).mgr
      = (mgr1.GetCredentials []).2.1 :=
  notFound_no_retry_no_penalty mgr1 (fun _ => []) (fun _ => SmartyResponse.noResults)
    addr0 credA (by decide) rfl

/-- C6 counterexample: with a five-credential pool and a transient
failure on every attempt, the address is dropped with no Outcome, but
`InvalidateCurrent` is called 5 times — once per failed attempt, the
total number of attempts being `maxRetries + 1 = 5` — not 4 times as
claimed. -/
theorem transient_invalidations_counterexample :
    (smartyProcessJob mgr5 (fun _ => []) (fun _ => SmartyResponse.sendError) addr0).invalidations = 5 ∧
    ¬ (smartyProcessJob mgr5 (fun _ => []) (fun _ => SmartyResponse.sendError) addr0).invalidations = 4 ∧
    (smartyProcessJob mgr5 (fun _ => []) (fun _ => SmartyResponse.sendError) addr0).sends = [] ∧
    (smartyProcessJob mgr5 (fun _ => []) (fun _ => SmartyResponse.sendError) addr0).dropped = true := by
  decide

/-- C6 amended: when every attempt fails transiently (and the pool has
enough credentials that each of the `maxRetries + 1 = 5` attempts
acquires one), the address is dropped with no Outcome on either stream,
the worker keeps running, and `InvalidateCurrent` is called exactly
`maxRetries + 1 = 5` times — once per failed attempt. -/
theorem transient_all_attempts_dropped (mgr : APIManager)
    (replenish : Nat → List ApiCredential) (responses : Nat → SmartyResponse)
    (addr : Address)
    (hresp : ∀ i, responses i = SmartyResponse.sendError)
    (husage : mgr.usageCount < mgr.maxUsage) (hq : 0 < mgr.maxUsage)
    (hlen : mgr.current + (maxRetries + 1) ≤ mgr.credentials.length) :
    (smartyProcessJob mgr replenish responses addr).invalidations = maxRetries + 1 ∧
    (smartyProcessJob mgr replenish responses addr).sends = [] ∧
    (smartyProcessJob mgr replenish responses addr).dropped = true ∧
    (smartyProcessJob mgr replenish responses addr).attempts = maxRetries + 1 := by
  have h := smartyAttemptLoop_transient replenish responses addr hresp
    (maxRetries + 1) 0 mgr husage hq hlen
  unfold smartyProcessJob
  refine ⟨h.1, h.2.1, ?_, h.2.2.2.2.1⟩
  unfold JobResult.dropped
  rw [h.2.2.1, h.2.2.2.1]
  rfl

/-- Witness for the amended C6 at the concrete five-credential pool. -/
theorem transient_all_attempts_dropped_witness :
    (smartyProcessJob mgr5 (fun _ => []) (fun _ => SmartyResponse.sendError) addr0).invalidations
      = maxRetries + 1 ∧
    (smartyProcessJob mgr5 (fun _ => []) (fun _ => SmartyResponse.sendError) addr0).sends = [] ∧
    (smartyProcessJob mgr5 (fun _ => []) (fun _ => SmartyResponse.sendError) addr0).dropped = true ∧
    (smartyProcessJob mgr5 (fun _ => []) (fun _ => SmartyResponse.sendError) addr0).attempts
      = maxRetries + 1 :=
  transient_all_attempts_dropped mgr5 (fun _ => []) (fun _ => SmartyResponse.sendError)
    addr0 (fun _ => rfl) (by decide) (by decide) (by decide)

/-- C7: in any run of the retry loop, no wait precedes the first
attempt and the wait inserted before retry attempt `i` is exactly
`initialBackoff * 2 ^ (i - 1)`: the list of sleeps of a run that entered
`k` iterations is `[backoff 1, ..., backoff (k-1)]`, i.e. the schedule
`base, 2*base, 4*base, ...`; concretely, a run exhausting all 4 retries
sleeps `[2, 4, 8, 16]` seconds. -/
theorem backoff_schedule (mgr : APIManager) (replenish : Nat → List ApiCredential)
    (responses : Nat → SmartyResponse) (addr : Address) :
    (smartyProcessJob mgr replenish responses addr).sleeps
      = (List.range' 1 ((smartyProcessJob mgr replenish responses addr).attempts - 1)).map
          backoffDuration ∧
    (∀ i : Nat, backoffDuration (i + 1) = initialBackoffSec * 2 ^ i) ∧
    (smartyProcessJob mgr5 (fun _ => []) (fun _ => SmartyResponse.sendError) addr0).sleeps
      = [initialBackoffSec, 2 * initialBackoffSec, 4 * initialBackoffSec,
         8 * initialBackoffSec] := by
  refine ⟨?_, fun i => by simp [backoffDuration], by decide⟩
  have hs := smartyAttemptLoop_sleeps replenish responses addr (maxRetries + 1) 0 mgr
  have hpos := smartyAttemptLoop_attempts_pos replenish responses addr maxRetries 0 mgr
  unfold smartyProcessJob
  rw [hs]
  rcases hk : (smartyAttemptLoop replenish responses addr 0 (maxRetries + 1) mgr).attempts with _ | k
  · rw [hk] at hpos
    omega
  · rw [show List.range' 0 (k + 1) = 0 :: List.range' 1 k from rfl]
    rw [List.filter_cons]
    simp only [beq_self_eq_true, Bool.not_true, if_false]
    rw [range'_filter_pos k 0]
    simp


/-- Witness for C9: an empty exhausted pool, a no-replenishment
operation sequence, and a one-credential replenishment. -/
theorem cursor_monotonic_witness :
    (NewAPIManager []).current
      ≤ ((NewAPIManager []).runOps [PoolOp.invalidate, PoolOp.acquire []]).current ∧
    (NewAPIManager []).runOps [PoolOp.invalidate, PoolOp.acquire []]
      = NewAPIManager [] ∧
    ((NewAPIManager []).GetCredentials [credA]).2.1.current
      < ((NewAPIManager []).GetCredentials [credA]).2.1.credentials.length := by
  have h := cursor_monotonic (NewAPIManager []) [PoolOp.invalidate, PoolOp.acquire []]
  exact ⟨h.1, h.2.1 (by decide) (by decide),
    h.2.2 (by decide) (by decide) [credA] (by decide)⟩

/-! ## Claim theorems about shutdown coordination and the streams -/

theorem mainShutdown_le_one_aux : ∀ (evts : List MainEvent) (s : ShutdownState),
    s.closeCount ≤ 1 → (s.jobsClosed = false → s.closeCount = 0) →
    (evts.foldl mainShutdownStep s).closeCount ≤ 1 := by
  intro evts
  induction evts with
  | nil => intro s h1 _; exact h1
  | cons e evts ih =>
      intro s h1 h2
      show (evts.foldl mainShutdownStep (mainShutdownStep s e)).closeCount ≤ 1
      apply ih
      · unfold mainShutdownStep shutdownOnceDo
        split
        · exact h1
        · rename_i h
          have hb : s.jobsClosed = false := by
            revert h
            cases s.jobsClosed <;> simp
          simp [h2 hb]
      · unfold mainShutdownStep shutdownOnceDo
        split
        · exact h2
        · intro hfalse
          exact absurd hfalse (by simp)

/-- C2 evaluation: the `sync.Once` gate does close the job queue at
most once over any interleaving of watcher events (so concurrent
triggers are safe), but the exhaustion watcher fires on ANY
`failedJobs` message, and `smartyWorker` also sends unknown-address
failures to `failedJobs`: a single unknown-address failure — neither
discovery completion nor a credentials-exhausted report — closes the
job queue by itself, contradicting the claim (and the code's own
"credential exhaustion signal detected" log line). -/
theorem jobQueue_close_triggers :
    (∀ evts : List MainEvent, (mainShutdownRun evts).closeCount ≤ 1) ∧
    (mainShutdownRun [MainEvent.discoveryDone, MainEvent.failedJobsRecv]).closeCount = 1 ∧
    (smartyProcessJob mgr1 (fun _ => []) (fun _ => SmartyResponse.noResults) addr0).sends
      = [Sent.toFailed addr0] ∧
    (mainShutdownRun [MainEvent.failedJobsRecv]).jobsClosed = true ∧
    (mainShutdownRun [MainEvent.failedJobsRecv]).closeCount = 1 := by
  refine ⟨?_, by decide, by decide, by decide, by decide⟩
  intro evts
  exact mainShutdown_le_one_aux evts initShutdownState (by decide) (fun _ => rfl)

/-- C1 evaluation at the failing input: a single unknown-address job
places exactly one Outcome on the failure stream, but the exhaustion
watcher of `main` consumes the first `failedJobs` message as its
shutdown signal, so `writeFailedToCSV` receives nothing: that Outcome
never reaches the failed-results writer. -/
theorem firstFailureStreamOutcome_lost :
    (smartyProcessJob mgr1 (fun _ => []) (fun _ => SmartyResponse.noResults) addr0).sends
      = [Sent.toFailed addr0] ∧
    mainFailedStreamToWriter [addr0] = [] := by
  decide

/-! ## Claim theorem about the discovery crawler -/

/-- C8 evaluation at the failing input: when the address markup of a
card does not match `streetRe` (the regexp engine returns nil),
`getStateDetail` panics on `streetMatch[1]` — aborting the whole
program, so later cards are not processed — and when the page fetch
fails, the nil response is dereferenced: another panic.  Discovery
faults are thus not logged-and-skipped. -/
theorem getStateDetail_crash_on_bad_markup
    (rmatch : String → Option (String × String × String × String))
    (card : LocationCard) (cards : List LocationCard)
    (hnone : rmatch card.addrHtml = none) :
    getStateDetailCards rmatch (card :: cards) = Except.error () ∧
    getStateDetailRun rmatch FetchResult.netError = Except.error () := by
  constructor
  · unfold getStateDetailCards parseCard
    rw [hnone]
  · rfl

/-- A regexp-match oracle for the witness: matches exactly the one
well-formed address string (which does contain the mandatory `<br`
of `streetRe`) and nothing else. -/
def sampleMatcher (s : String) : Option (String × String × String × String) :=
  if s = "1 Main St<br>Springfield, IL 62701"
  then some ("1 Main St", "Springfield", "IL", "62701") else none

/-- A card whose `div.t-addr` markup cannot match `streetRe` (no `<br`
tag, no ZIP digits). -/
def badCard : LocationCard :=
  { title := "Mailbox B", price := "19.99", addrHtml := "TBD", href := "/x" }

/-- A card with well-formed address markup. -/
def goodCard : LocationCard :=
  { title := "Mailbox A", price := "9.99",
    addrHtml := "1 Main St<br>Springfield, IL 62701", href := "/y" }

/-- Witness for C8: the bad card crashes the crawl even though a
well-formed card follows it. -/
theorem getStateDetail_crash_on_bad_markup_witness :
    getStateDetailCards sampleMatcher [badCard, goodCard] = Except.error () ∧
    getStateDetailRun sampleMatcher FetchResult.netError = Except.error () :=
  getStateDetail_crash_on_bad_markup sampleMatcher badCard [goodCard] (by decide)
